import Mathlib

/-!
Verification of the slq departure query and filtering engine.

This file gives a shallow embedding, in Lean 4, of the core logic of the
slq command-line client (src/client.c, src/main.c, src/cli.c) and proves
the specification claims about it.

Modelling conventions:
* C strings are modelled as Lean `String` / `List Char`.  The C code only
  ever case-folds ASCII bytes (`tolower` in the C locale), which acts on
  UTF-8 data byte-wise but only changes bytes 65..90; at the level of
  decoded characters this is exactly `toLowerChar` below.
* `unsigned int` / `unsigned long` arithmetic is modelled on `Nat` with
  explicit `% 2 ^ 32` (resp. clamping at `2 ^ 64 - 1` for `strtoul`).
* jansson JSON values are modelled by the inductive `Json`; an object is
  an association list (jansson objects have unique keys, lookup takes the
  first binding).
* The libcurl fetches are abstracted: functions that fetch the site list
  take the (already decoded) site list as a parameter, and report how many
  site-list fetches they perform.
* Wall-clock time: `calculate_wait_minutes` in C converts both the parsed
  timestamp and `localtime(now)` through `mktime` with `tm_isdst = 0` and
  takes the difference, so the local-time offset cancels; we model the
  current moment as an integer `now` of civil-time seconds on the same
  proleptic-Gregorian scale as `tmToSeconds`.
-/

/-! ## Character and string utilities (src/client.c lines 519-572) -/

/-- C `tolower` in the C locale: bytes 65..90 (ASCII A-Z) are shifted by
32, everything else is unchanged. -/
def toLowerChar (c : Char) : Char :=
  if 65 ≤ c.toNat ∧ c.toNat ≤ 90 then Char.ofNat (c.toNat + 32) else c

/-- Case-folding a list of characters; `str_to_lower` of src/client.c. -/
def lowerL (l : List Char) : List Char := l.map toLowerChar

/-- String-level wrapper for `str_to_lower` (src/client.c line 520). -/
def str_to_lower (s : String) : String := ⟨lowerL s.data⟩

/-- C locale `isspace`: space, \t, \n, \v, \f, \r. -/
def isSpaceC (c : Char) : Bool :=
  c = ' ' ∨ c = '\t' ∨ c = '\n' ∨ c.toNat = 11 ∨ c.toNat = 12 ∨ c = '\r'

/-- C locale `isdigit`. -/
def isDigitC (c : Char) : Bool := 48 ≤ c.toNat ∧ c.toNat ≤ 57

/-- C locale `isalpha`: ASCII letters only. -/
def isAlphaC (c : Char) : Bool :=
  (65 ≤ c.toNat ∧ c.toNat ≤ 90) ∨ (97 ≤ c.toNat ∧ c.toNat ≤ 122)

/-- Numeric value of a decimal digit character. -/
def digitVal (c : Char) : Nat := c.toNat - 48

/-- Value of a list of decimal digit characters, most significant first. -/
def natOfDigits (l : List Char) : Nat := l.foldl (fun a c => a * 10 + digitVal c) 0

/-- Does the first list occur at the head of the second list?  This is the
successful case of a bounded C `strncmp`-style comparison. -/
def leadsWith : List Char → List Char → Bool
  | [], _ => true
  | _ :: _, [] => false
  | a :: t, b :: u => a = b && leadsWith t u

/-- C `strstr`: does `needle` occur contiguously inside `hay`?  An empty
needle always matches. -/
def strstrB : List Char → List Char → Bool
  | [], needle => needle.isEmpty
  | c :: t, needle => leadsWith needle (c :: t) || strstrB t needle

/-- `str_contains_case_insensitive` (src/client.c lines 536-551): lower
both operands and search with `strstr`. -/
def str_contains_case_insensitive (haystack needle : String) : Bool :=
  strstrB (lowerL haystack.data) (lowerL needle.data)

/-- `line_matches_filter` (src/client.c lines 554-572): case-insensitive
equality, or a case-insensitive head match whose immediately following
character is an ASCII letter. -/
def line_matches_filter (designation line_filter : String) : Bool :=
  if lowerL designation.data = lowerL line_filter.data then true
  else if leadsWith (lowerL line_filter.data) (lowerL designation.data) then
    match designation.data.drop line_filter.data.length with
    | c :: _ => isAlphaC c
    | [] => false
  else false

/-! ## Data model (src/types.c, src/c-version/src/types.h) -/

/-- A transit line: rider-facing designation plus the provider's free-text
transport group, which may be absent (NULL in C). -/
structure Line where
  designation : String
  group_of_lines : Option String
  deriving DecidableEq, Repr

/-- One departure event as stored in `departure_t`. -/
structure Departure where
  destination : String
  expected : String
  line : Line
  deriving DecidableEq, Repr

/-- One site record as stored in `stop_info_t` (`id` is an `unsigned int`,
kept as a `Nat` below `2 ^ 32`). -/
structure StopInfo where
  name : String
  id : Nat
  deriving DecidableEq, Repr

/-- Generic JSON-like value (the jansson `json_t` tree).  Objects are
association lists with unique keys; lookup takes the first binding. -/
inductive Json where
  | null : Json
  | bool (b : Bool) : Json
  | num (n : Int) : Json
  | str (s : String) : Json
  | arr (elems : List Json) : Json
  | obj (fields : List (String × Json)) : Json

/-- jansson `json_object_get`: `none` when the value is not an object or
the key is missing. -/
def Json.getField : Json → String → Option Json
  | .obj fields, key => (fields.find? (fun f => f.1 = key)).map (fun f => f.2)
  | _, _ => none

/-! ## Response normalizer (src/client.c lines 315-371) -/

/-- One iteration of the `json_array_foreach` loop in
`parse_departures_json`: the departure materialized from one array
element, or `none` when the element is skipped.  The C code requires
`destination` and `expected` to be JSON strings, `line` to be an object
with a string `designation`, and (the explicit `if (group)` check on line
356) a string `group_of_lines`; nothing is ever checked for emptiness. -/
def normalizeElem (j : Json) : Option Departure :=
  match j.getField "destination", j.getField "expected", j.getField "line" with
  | some (.str destination), some (.str expected), some (.obj lineFields) =>
    match Json.getField (.obj lineFields) "designation" with
    | some (.str designation) =>
      match Json.getField (.obj lineFields) "group_of_lines" with
      | some (.str group) => some ⟨destination, expected, ⟨designation, some group⟩⟩
      | _ => none
    | _ => none
  | _, _, _ => none

/-- `parse_departures_json` on an already decoded JSON tree: requires a
`departures` array field, then keeps every element that materializes. -/
def parse_departures_json (root : Json) : Option (List Departure) :=
  match root.getField "departures" with
  | some (.arr elems) => some (elems.filterMap normalizeElem)
  | _ => none

/-! ## Station resolution (src/client.c lines 132-149 and 236-265) -/

/-- The optional-sign step of `strtoul`: consume one leading '-' or '+'
and report whether the value must be negated. -/
def stripSign (l : List Char) : Bool × List Char :=
  match l with
  | c :: t => if c = '-' then (true, t) else if c = '+' then (false, t) else (false, c :: t)
  | [] => (false, [])

/-- glibc `strtoul(s, &endptr, 10)` on a character list: skip C-locale
whitespace, accept one optional sign, then decimal digits.  Returns the
value as an `unsigned long` (clamped to `2 ^ 64 - 1` on overflow, negated
modulo `2 ^ 64` for a minus sign) together with the rest of the string at
`endptr`; when no digits are found, `endptr` is reset to the start and the
value is 0. -/
def strtoul10 (s : List Char) : Nat × List Char :=
  let signed := stripSign (s.dropWhile isSpaceC)
  let digits := signed.2.takeWhile isDigitC
  if digits.isEmpty then (0, s)
  else
    let v := natOfDigits digits
    let out :=
      if 2 ^ 64 - 1 < v then 2 ^ 64 - 1
      else if signed.1 then (2 ^ 64 - v % 2 ^ 64) % 2 ^ 64 else v
    (out, signed.2.drop digits.length)

/-- `sl_find_station_id` (src/client.c lines 236-265) given the fetched
site list: the id of the first site whose name contains the query
case-insensitively, or 0 when there is none. -/
def sl_find_station_id (sites : List StopInfo) (station_name : String) : Nat :=
  match sites.find? (fun site => str_contains_case_insensitive site.name station_name) with
  | some site => site.id
  | none => 0

/-- The station-resolution step of `sl_get_departures` (src/client.c lines
137-149).  Returns the resolved id (`none` on the not-found error path)
together with the number of site-list fetches performed.  The C code runs
`strtoul` first and only falls back to the name lookup when `*endptr`
is not NUL; the `unsigned int station_id` truncates the value mod
`2 ^ 32`. -/
def resolveStation (sites : List StopInfo) (station : String) : Option Nat × Nat :=
  if (strtoul10 station.data).2 = [] then (some ((strtoul10 station.data).1 % 2 ^ 32), 0)
  else
    (if sl_find_station_id sites station = 0 then none
     else some (sl_find_station_id sites station), 1)

/-! ## Filter pipeline (src/client.c lines 374-474) -/

/-- The in-place compaction pattern shared by all three filters: walk the
list with a read index, copy survivors down to the write index, set the
count to the write index.  Functionally this keeps exactly the elements
satisfying the predicate, in order. -/
def retainPass (p : α → Bool) : List α → List α
  | [] => []
  | x :: t => if p x then x :: retainPass p t else retainPass p t

/-- `filter_departures_by_line` (src/client.c lines 374-390). -/
def filter_departures_by_line (departures : List Departure) (line : String) : List Departure :=
  retainPass (fun dep => line_matches_filter dep.line.designation line) departures

/-- The per-departure match of `filter_departures_by_transport`
(src/client.c lines 399-433): the transport token is lowered, compared
against the four fixed category names, and the lowered group is searched
for the category's hard-coded substrings.  The non-ASCII bytes in the
source file are reproduced verbatim. -/
def transportGroupMatches (transport_type : String) (group : String) : Bool :=
  if lowerL transport_type.data = "metro".data then
    strstrB (lowerL group.data) "tunnelbanan".data
  else if lowerL transport_type.data = "bus".data then
    strstrB (lowerL group.data) "buss".data || strstrB (lowerL group.data) "n채rtrafiken".data
  else if lowerL transport_type.data = "train".data then
    strstrB (lowerL group.data) "pendelt책g".data || strstrB (lowerL group.data) "roslagsbanan".data
  else if lowerL transport_type.data = "tram".data then
    strstrB (lowerL group.data) "sp책rv채g".data
  else false

/-- `filter_departures_by_transport` (src/client.c lines 393-434): a
departure with no transport group is dropped, otherwise it is kept iff
`transportGroupMatches`. -/
def filter_departures_by_transport (departures : List Departure) (transport_type : String) :
    List Departure :=
  retainPass
    (fun dep =>
      match dep.line.group_of_lines with
      | some group => transportGroupMatches transport_type group
      | none => false)
    departures

/-- The per-departure match of `filter_departures_by_destination`
(src/client.c lines 440-460): when `strtoul` consumes the whole token the
destination must contain the decimal rendering of the parsed id truncated
to `unsigned int`; otherwise a case-insensitive substring test against
the lowered token. -/
def destinationMatches (destination_token : String) (destination : String) : Bool :=
  if (strtoul10 destination_token.data).2 = [] then
    strstrB destination.data (Nat.repr ((strtoul10 destination_token.data).1 % 2 ^ 32)).data
  else
    str_contains_case_insensitive destination (str_to_lower destination_token)

/-- `filter_departures_by_destination` (src/client.c lines 437-474). -/
def filter_departures_by_destination (departures : List Departure) (destination : String) :
    List Departure :=
  retainPass (fun dep => destinationMatches destination dep.destination) departures

/-! ## Query orchestrator (src/client.c lines 188-202, src/main.c 82-115) -/

/-- The filter-application section of `sl_get_departures` (src/client.c
lines 188-199): each filter runs only when its argument is non-NULL, in
the order line, transport, destination. -/
def sl_get_departures_filters (departures : List Departure)
    (line_filter transport_filter destination_filter : Option String) : List Departure :=
  let afterLine :=
    match line_filter with
    | some l => filter_departures_by_line departures l
    | none => departures
  let afterTransport :=
    match transport_filter with
    | some t => filter_departures_by_transport afterLine t
    | none => afterLine
  match destination_filter with
  | some d => filter_departures_by_destination afterTransport d
  | none => afterTransport

/-- The rows actually printed by `handle_departures` (src/main.c lines
82-115): the loop runs for `min count length` iterations over the list
returned by `sl_get_departures`. -/
def handle_departures_rows (departures : List Departure) (count : Nat) : List Departure :=
  departures.take count

/-! ## Time normalization (src/client.c lines 476-517) -/

/-- Broken-down time as filled by `strptime` with format
`%Y-%m-%dT%H:%M:%S`. -/
structure Tm where
  year : Nat
  month : Nat
  day : Nat
  hour : Nat
  minute : Nat
  second : Nat
  deriving DecidableEq, Repr

/-- The digit-accumulation loop of glibc strptime's `get_number` macro:
after the first digit, keep consuming while width remains, the
accumulated value times 10 stays within `hi`, and the next character is a
digit. -/
def getNumLoop (hi : Nat) : Nat → Nat → List Char → Nat × List Char
  | 0, val, s => (val, s)
  | width + 1, val, s =>
    match s with
    | c :: t =>
      if val * 10 ≤ hi ∧ isDigitC c then getNumLoop hi width (val * 10 + digitVal c) t
      else (val, c :: t)
    | [] => (val, [])

/-- The post-whitespace part of glibc strptime's `get_number`: require a
first digit, run the accumulation loop, then range-check the result. -/
def getNumStart (lo hi width : Nat) : List Char → Option (Nat × List Char)
  | c :: t =>
    if isDigitC c then
      if lo ≤ (getNumLoop hi (width - 1) (digitVal c) t).1 ∧
          (getNumLoop hi (width - 1) (digitVal c) t).1 ≤ hi then
        some (getNumLoop hi (width - 1) (digitVal c) t)
      else none
    else none
  | [] => none

/-- glibc strptime `get_number(lo, hi, width)`: skip whitespace, then
read a bounded, range-checked digit run. -/
def get_number (lo hi width : Nat) (s : List Char) : Option (Nat × List Char) :=
  getNumStart lo hi width (s.dropWhile isSpaceC)

/-- Literal-character match inside strptime. -/
def matchChar (c : Char) : List Char → Option (List Char)
  | d :: t => if d = c then some t else none
  | [] => none

/-- glibc `strptime(s, "%Y-%m-%dT%H:%M:%S", &tm)`: the six numeric fields
with their glibc ranges, separated by exact literal characters.  Any
unconsumed suffix is ignored (strptime just returns a pointer past the
last consumed character, and `calculate_wait_minutes` only checks it for
NULL). -/
def strptimeTs (s : List Char) : Option Tm := do
  let (year, s) ← get_number 0 9999 4 s
  let s ← matchChar '-' s
  let (month, s) ← get_number 1 12 2 s
  let s ← matchChar '-' s
  let (day, s) ← get_number 1 31 2 s
  let s ← matchChar 'T' s
  let (hour, s) ← get_number 0 23 2 s
  let s ← matchChar ':' s
  let (minute, s) ← get_number 0 59 2 s
  let s ← matchChar ':' s
  let (second, _) ← get_number 0 61 2 s
  pure ⟨year, month, day, hour, minute, second⟩

/-- Leap year predicate of the proleptic Gregorian calendar. -/
def isLeapYear (y : Nat) : Bool := y % 4 = 0 ∧ (y % 100 ≠ 0 ∨ y % 400 = 0)

/-- Days in the months strictly before month `m` (1-based) of a common
year. -/
def daysBeforeMonth (m : Nat) : Nat :=
  [0, 31, 59, 90, 120, 151, 181, 212, 243, 273, 304, 334].getD (m - 1) 0

/-- Civil-time seconds of a broken-down time on a proleptic Gregorian
scale (the role `mktime` plays in `calculate_wait_minutes`; the fixed
local-time offset cancels in the difference and is absorbed into the
`now` parameter).  Out-of-range days such as February 31 are carried over
just as `mktime` normalizes them. -/
def tmToSeconds (t : Tm) : Int :=
  let daysYears : Nat := 365 * t.year + (t.year + 3) / 4 - (t.year + 99) / 100 + (t.year + 399) / 400
  let leapDay : Nat := if 2 < t.month ∧ isLeapYear t.year then 1 else 0
  ((86400 * (daysYears + daysBeforeMonth t.month + leapDay + (t.day - 1))
    + 3600 * t.hour + 60 * t.minute + t.second : Nat) : Int)

/-- `calculate_wait_minutes` (src/client.c lines 493-517) with the current
civil-time moment `now` passed explicitly: -1 when strptime fails,
otherwise the signed difference in seconds divided by 60 with C's
truncation toward zero, clamped below at 0. -/
def calculate_wait_minutes (time_str : String) (now : Int) : Int :=
  match strptimeTs time_str.data with
  | none => -1
  | some tm =>
    let diff_minutes := Int.tdiv (tmToSeconds tm - now) 60
    if 0 < diff_minutes then diff_minutes else 0

/-! ### Spec-side definitions for claim C5 -/

/-- The two low decimal digits of `n`, zero padded. -/
def pad2 (n : Nat) : List Char :=
  [Char.ofNat (48 + n / 10 % 10), Char.ofNat (48 + n % 10)]

/-- The four low decimal digits of `n`, zero padded. -/
def pad4 (n : Nat) : List Char :=
  [Char.ofNat (48 + n / 1000 % 10), Char.ofNat (48 + n / 100 % 10),
   Char.ofNat (48 + n / 10 % 10), Char.ofNat (48 + n % 10)]

/-- Modelled from the spec: a timestamp written in the fixed format
`YYYY-MM-DDTHH:MM:SS` (zero-padded, four-digit year), per spec section
4.3. -/
def renderTs (y mo d h mi s : Nat) : String :=
  ⟨pad4 y ++ '-' :: (pad2 mo ++ '-' :: (pad2 d ++
    'T' :: (pad2 h ++ ':' :: (pad2 mi ++ ':' :: pad2 s))))⟩

/-- Modelled from the spec: the property of being a well-formed timestamp
in the format `YYYY-MM-DDTHH:MM:SS` with in-range calendar fields. -/
def specWellFormedTs (str : String) : Prop :=
  ∃ y mo d h mi s : Nat,
    y ≤ 9999 ∧ 1 ≤ mo ∧ mo ≤ 12 ∧ 1 ≤ d ∧ d ≤ 31 ∧ h ≤ 23 ∧ mi ≤ 59 ∧ s ≤ 59 ∧
    str = renderTs y mo d h mi s

/-! ## Spec-side vocabulary and concrete fixtures -/

/-- Modelled from the spec: the per-category substring tables for the
transport filter (spec section 4.6); the pattern strings are the fixed
literals of src/client.c lines 408-414 (non-ASCII bytes verbatim). -/
def transportPatterns (category : String) : List String :=
  if category = "metro" then ["tunnelbanan"]
  else if category = "bus" then ["buss", "n채rtrafiken"]
  else if category = "train" then ["pendelt책g", "roslagsbanan"]
  else if category = "tram" then ["sp책rv채g"]
  else []

/-- Modelled from the spec: the record-level shape required for a
departure to be materialized (spec section 4.4, with string type checks
in place of the claimed non-emptiness). -/
def departureRecordShape (j : Json) : Prop :=
  (∃ s, j.getField "destination" = some (Json.str s)) ∧
  (∃ s, j.getField "expected" = some (Json.str s)) ∧
  (∃ lineFields,
    j.getField "line" = some (Json.obj lineFields) ∧
    (∃ s, Json.getField (Json.obj lineFields) "designation" = some (Json.str s)) ∧
    (∃ s, Json.getField (Json.obj lineFields) "group_of_lines" = some (Json.str s)))

/-- Fixture: the metro departure of the spec's end-to-end scenario. -/
def depA : Departure :=
  ⟨"Mörby centrum", "2025-01-01T10:05:00", ⟨"14", some "Tunnelbanans blå linje"⟩⟩

/-- Fixture: a suffixed-line departure. -/
def depB : Departure :=
  ⟨"Ropsten", "2025-01-01T10:07:00", ⟨"28X", some "Tunnelbanans röda linje"⟩⟩

/-- Fixture: a second line-14 departure. -/
def depC : Departure :=
  ⟨"Fruängen", "2025-01-01T10:09:00", ⟨"14", some "Tunnelbanans röda linje"⟩⟩

/-- Fixture: a fully valid departures-array element. -/
def elemValid : Json :=
  Json.obj
    [("destination", Json.str "Mörby centrum"),
     ("expected", Json.str "2025-01-01T10:05:00"),
     ("line", Json.obj
        [("designation", Json.str "14"),
         ("group_of_lines", Json.str "Tunnelbanans blå linje")])]

/-- Fixture: an element whose line object lacks `group_of_lines`. -/
def elemNoGroup : Json :=
  Json.obj
    [("destination", Json.str "Odenplan"),
     ("expected", Json.str "2025-01-01T10:06:00"),
     ("line", Json.obj [("designation", Json.str "4")])]

/-- Fixture: a fully typed element whose destination string is empty. -/
def elemEmptyDest : Json :=
  Json.obj
    [("destination", Json.str ""),
     ("expected", Json.str "2025-01-01T10:05:00"),
     ("line", Json.obj
        [("designation", Json.str "14"),
         ("group_of_lines", Json.str "Tunnelbanans blå linje")])]

/-- Fixture: a departures payload with one invalid and one valid element. -/
def mixRoot : Json := Json.obj [("departures", Json.arr [elemNoGroup, elemValid])]

/-- Fixture: a departure whose destination text embeds a station id. -/
def dep9001 : Departure :=
  ⟨"To 9001 Central", "2025-01-01T10:05:00", ⟨"14", some "Tunnelbanans blå linje"⟩⟩

/-- Fixture: a departure toward the airport. -/
def depAirport : Departure :=
  ⟨"To Airport", "2025-01-01T10:07:00", ⟨"28", some "Flygbussarna buss"⟩⟩

/-- Fixture: a second airport departure with different letter case. -/
def depAirport2 : Departure :=
  ⟨"to the AIRPORT bus stop", "2025-01-01T10:09:00", ⟨"28", some "Flygbussarna buss"⟩⟩

/-- Fixture: a departure whose destination text contains the characters
of a signed token. -/
def depDash1 : Departure :=
  ⟨"Väg -1 Norra", "2025-01-01T10:05:00", ⟨"14", some "Tunnelbanans blå linje"⟩⟩

/-! ## Lemmas about the string utilities -/

theorem toLowerChar_toNat_letter (n : Nat) (h1 : 65 ≤ n) (h2 : n ≤ 90) :
    (Char.ofNat (n + 32)).toNat = n + 32 := by
  interval_cases n <;> decide

theorem toLowerChar_idem (c : Char) : toLowerChar (toLowerChar c) = toLowerChar c := by
  by_cases h : 65 ≤ c.toNat ∧ c.toNat ≤ 90
  · have hn := toLowerChar_toNat_letter c.toNat h.1 h.2
    simp only [toLowerChar, if_pos h, hn]
    have : ¬(65 ≤ c.toNat + 32 ∧ c.toNat + 32 ≤ 90) := by omega
    rw [if_neg this]
  · simp only [toLowerChar, if_neg h]

theorem lowerL_idem (l : List Char) : lowerL (lowerL l) = lowerL l := by
  induction l with
  | nil => rfl
  | cons c t ih =>
    simp only [lowerL, List.map_cons, toLowerChar_idem] at ih ⊢
    rw [show List.map toLowerChar (List.map toLowerChar t) = List.map toLowerChar t from ih]

theorem retainPass_eq_filter (p : α → Bool) (l : List α) :
    retainPass p l = List.filter p l := by
  induction l with
  | nil => rfl
  | cons x t ih => by_cases h : p x <;> simp [retainPass, List.filter_cons, h, ih]

theorem retainPass_sublist (p : α → Bool) (l : List α) :
    List.Sublist (retainPass p l) l := by
  rw [retainPass_eq_filter]; exact List.filter_sublist l

theorem mem_retainPass {p : α → Bool} {l : List α} {a : α} :
    a ∈ retainPass p l ↔ a ∈ l ∧ p a = true := by
  rw [retainPass_eq_filter]; exact List.mem_filter

/-! ## Claim C3: the line-designation matching rule -/

/-- C3: for every designation and filter token, `line_matches_filter`
returns true exactly when the designation equals the token
case-insensitively, or case-insensitively starts with the token and the
character immediately after that prefix exists and is an ASCII letter;
and the four quoted examples evaluate as the spec states. -/
theorem c3_line_matching :
    (∀ designation token : String,
      line_matches_filter designation token = true ↔
        (lowerL designation.data = lowerL token.data ∨
          (leadsWith (lowerL token.data) (lowerL designation.data) = true ∧
            ∃ c rest, designation.data.drop token.data.length = c :: rest ∧
              isAlphaC c = true))) ∧
    line_matches_filter "28X" "28" = true ∧
    line_matches_filter "28" "28" = true ∧
    line_matches_filter "280" "28" = false ∧
    line_matches_filter "14" "28" = false := by
  refine ⟨?_, by decide, by decide, by decide, by decide⟩
  intro d f
  unfold line_matches_filter
  split_ifs with h1 h2
  · simp [h1]
  · cases hdrop : d.data.drop f.data.length with
    | nil => simp [hdrop, h1]
    | cons c rest => simp [hdrop, h1, h2]
  · simp [h1, h2]

/-! ## Claim C6: every filter pass is a stable partition -/

/-- C6: each of the three filter passes produces a sublist of its input
(so its length never exceeds the input length, surviving elements keep
their relative order, and no surviving departure is altered), and
filtering the quoted three-departure list by line 14 keeps the first and
third departures in order. -/
theorem c6_stable_filtering :
    (∀ deps tok, List.Sublist (filter_departures_by_line deps tok) deps) ∧
    (∀ deps tok, List.Sublist (filter_departures_by_transport deps tok) deps) ∧
    (∀ deps tok, List.Sublist (filter_departures_by_destination deps tok) deps) ∧
    (∀ deps tok, (filter_departures_by_line deps tok).length ≤ deps.length) ∧
    (∀ deps tok, (filter_departures_by_transport deps tok).length ≤ deps.length) ∧
    (∀ deps tok, (filter_departures_by_destination deps tok).length ≤ deps.length) ∧
    filter_departures_by_line [depA, depB, depC] "14" = [depA, depC] := by
  refine ⟨fun deps tok => retainPass_sublist _ deps,
    fun deps tok => retainPass_sublist _ deps,
    fun deps tok => retainPass_sublist _ deps,
    fun deps tok => (retainPass_sublist _ deps).length_le,
    fun deps tok => (retainPass_sublist _ deps).length_le,
    fun deps tok => (retainPass_sublist _ deps).length_le,
    by decide⟩

/-! ## Claim C7: top-level failure and record-level tolerance -/

/-- C7: normalization succeeds exactly when the root value has an array
field named departures, and with a well-shaped root an invalid element
(here one lacking a transport group) is skipped while the valid element
survives. -/
theorem c7_normalize_top_level :
    (∀ root : Json,
      (parse_departures_json root).isSome = true ↔
        ∃ elems, root.getField "departures" = some (Json.arr elems)) ∧
    parse_departures_json mixRoot =
      some [⟨"Mörby centrum", "2025-01-01T10:05:00",
        ⟨"14", some "Tunnelbanans blå linje"⟩⟩] := by
  refine ⟨?_, by rfl⟩
  intro root
  unfold parse_departures_json
  cases hget : root.getField "departures" with
  | none => simp [hget]
  | some j => cases j <;> simp [hget]

/-! ## Claim C8: orchestrator filter order and caller-side truncation -/

/-- C8: the filter section of the orchestrator applies exactly the
supplied filters in the order line, transport, destination; omitted
filters leave the list untouched and supplying none returns the
normalized list unchanged; the orchestrator takes no display count and
the caller's rows are the prefix of the returned list of the requested
length. -/
theorem c8_orchestrator_pipeline :
    (∀ deps, sl_get_departures_filters deps none none none = deps) ∧
    (∀ deps l, sl_get_departures_filters deps (some l) none none =
      filter_departures_by_line deps l) ∧
    (∀ deps t, sl_get_departures_filters deps none (some t) none =
      filter_departures_by_transport deps t) ∧
    (∀ deps d, sl_get_departures_filters deps none none (some d) =
      filter_departures_by_destination deps d) ∧
    (∀ deps l t d, sl_get_departures_filters deps (some l) (some t) (some d) =
      filter_departures_by_destination
        (filter_departures_by_transport (filter_departures_by_line deps l) t) d) ∧
    (∀ deps l t d count,
      handle_departures_rows (sl_get_departures_filters deps l t d) count =
        (sl_get_departures_filters deps l t d).take count) :=
  ⟨fun _ => rfl, fun _ _ => rfl, fun _ _ => rfl, fun _ _ => rfl,
    fun _ _ _ _ => rfl, fun _ _ _ _ _ => rfl⟩

/-! ## Claim C9: the transport category filter -/

theorem transportGroupMatches_metro (g : String) :
    transportGroupMatches "metro" g = str_contains_case_insensitive g "tunnelbanan" := by
  unfold transportGroupMatches str_contains_case_insensitive
  rw [if_pos (by decide)]
  rw [show lowerL "tunnelbanan".data = "tunnelbanan".data from by decide]

theorem transportGroupMatches_bus (g : String) :
    transportGroupMatches "bus" g =
      (str_contains_case_insensitive g "buss" ||
        str_contains_case_insensitive g "n채rtrafiken") := by
  unfold transportGroupMatches str_contains_case_insensitive
  rw [if_neg (by decide), if_pos (by decide)]
  rw [show lowerL "buss".data = "buss".data from by decide,
    show lowerL "n채rtrafiken".data = "n채rtrafiken".data from by decide]

theorem transportGroupMatches_train (g : String) :
    transportGroupMatches "train" g =
      (str_contains_case_insensitive g "pendelt책g" ||
        str_contains_case_insensitive g "roslagsbanan") := by
  unfold transportGroupMatches str_contains_case_insensitive
  rw [if_neg (by decide), if_neg (by decide), if_pos (by decide)]
  rw [show lowerL "pendelt책g".data = "pendelt책g".data from by decide,
    show lowerL "roslagsbanan".data = "roslagsbanan".data from by decide]

theorem transportGroupMatches_tram (g : String) :
    transportGroupMatches "tram" g = str_contains_case_insensitive g "sp책rv채g" := by
  unfold transportGroupMatches str_contains_case_insensitive
  rw [if_neg (by decide), if_neg (by decide), if_neg (by decide), if_pos (by decide)]
  rw [show lowerL "sp책rv채g".data = "sp책rv채g".data from by decide]

/-- C9: for each category in the fixed set, the transport filter retains
a departure iff its transport group contains, case-insensitively, one of
the category's fixed substring patterns; and in the end-to-end scenario
the metro filter keeps the Tunnelbanans-blå-linje departure while the bus
filter removes it. -/
theorem c9_transport_categories :
    (∀ category : String, category ∈ (["metro", "bus", "train", "tram"] : List String) →
      ∀ deps dep, dep ∈ filter_departures_by_transport deps category ↔
        (dep ∈ deps ∧ ∃ g, dep.line.group_of_lines = some g ∧
          ∃ p ∈ transportPatterns category, str_contains_case_insensitive g p = true)) ∧
    filter_departures_by_transport [depA] "metro" = [depA] ∧
    filter_departures_by_transport [depA] "bus" = [] := by
  refine ⟨?_, by decide, by decide⟩
  intro category hcat deps dep
  unfold filter_departures_by_transport
  rw [mem_retainPass]
  fin_cases hcat
  · rw [show transportPatterns "metro" = ["tunnelbanan"] from by decide]
    cases hg : dep.line.group_of_lines with
    | none => simp [hg]
    | some g => simp [hg, transportGroupMatches_metro g]
  · rw [show transportPatterns "bus" = ["buss", "n채rtrafiken"] from by decide]
    cases hg : dep.line.group_of_lines with
    | none => simp [hg]
    | some g => simp [hg, transportGroupMatches_bus g]
  · rw [show transportPatterns "train" = ["pendelt책g", "roslagsbanan"] from by decide]
    cases hg : dep.line.group_of_lines with
    | none => simp [hg]
    | some g => simp [hg, transportGroupMatches_train g]
  · rw [show transportPatterns "tram" = ["sp책rv채g"] from by decide]
    cases hg : dep.line.group_of_lines with
    | none => simp [hg]
    | some g => simp [hg, transportGroupMatches_tram g]

/-- C9 witness: the metro category instantiated on the scenario
departure. -/
theorem c9_transport_categories_witness :
    ("metro" : String) ∈ (["metro", "bus", "train", "tram"] : List String) ∧
    (depA ∈ filter_departures_by_transport [depA] "metro" ↔
      (depA ∈ [depA] ∧ ∃ g, depA.line.group_of_lines = some g ∧
        ∃ p ∈ transportPatterns "metro", str_contains_case_insensitive g p = true)) :=
  ⟨by decide, c9_transport_categories.1 "metro" (by decide) [depA] depA⟩

/-! ## Claim C10: tokens outside the fixed category set -/

/-- C10 counterexample: the token METRO is outside the fixed set
{metro, bus, train, tram}, yet the transport filter retains the metro
departure instead of retaining nothing, because the C code lowercases the
token before the category comparison. -/
theorem c10_case_variant_token_retains :
    ("METRO" : String) ∉ (["metro", "bus", "train", "tram"] : List String) ∧
    filter_departures_by_transport [depA] "METRO" = [depA] := by
  constructor
  · decide
  · decide

/-- C10 amended: for every token whose lowercased form is outside the
fixed category set, the transport filter retains nothing; tokens that
differ from a category only by ASCII case behave as that category. -/
theorem c10_unrecognized_token_empties :
    ∀ deps (token : String),
      str_to_lower token ∉ (["metro", "bus", "train", "tram"] : List String) →
      filter_departures_by_transport deps token = [] := by
  intro deps token h
  simp only [List.mem_cons, List.mem_singleton, not_or] at h
  obtain ⟨h1, h2, h3, h4, _⟩ := h
  have e1 : lowerL token.data ≠ "metro".data := fun e => h1 (by rw [str_to_lower, e])
  have e2 : lowerL token.data ≠ "bus".data := fun e => h2 (by rw [str_to_lower, e])
  have e3 : lowerL token.data ≠ "train".data := fun e => h3 (by rw [str_to_lower, e])
  have e4 : lowerL token.data ≠ "tram".data := fun e => h4 (by rw [str_to_lower, e])
  have hfalse : ∀ g, transportGroupMatches token g = false := by
    intro g
    unfold transportGroupMatches
    rw [if_neg e1, if_neg e2, if_neg e3, if_neg e4]
  rw [filter_departures_by_transport, retainPass_eq_filter]
  rw [List.filter_eq_nil_iff]
  intro dep _
  cases hg : dep.line.group_of_lines with
  | none => simp [hg]
  | some g => simp [hg, hfalse g]

/-- C10 witness: a genuinely unrecognized token empties a non-empty
list. -/
theorem c10_unrecognized_token_empties_witness :
    str_to_lower "ferry" ∉ (["metro", "bus", "train", "tram"] : List String) ∧
    filter_departures_by_transport [depA] "ferry" = [] :=
  ⟨by decide, c10_unrecognized_token_empties [depA] "ferry" (by decide)⟩

/-! ## Claim C1: which records materialize a Departure -/

/-- C1 counterexample: a record whose destination is the empty string ""
(and whose other fields are well-typed) is still materialized, so
materialization does not require a non-empty destination. -/
theorem c1_empty_destination_materialized :
    normalizeElem elemEmptyDest =
      some ⟨"", "2025-01-01T10:05:00", ⟨"14", some "Tunnelbanans blå linje"⟩⟩ := rfl

/-- C1 amended: a Departure is materialized iff the record has
string-typed destination and expected fields and a line object with
string-typed designation and group_of_lines fields (emptiness is never
checked), and a well-shaped batch normalizes every record independently,
skipping the failures. -/
theorem c1_materialization_shape :
    (∀ j : Json, (normalizeElem j).isSome = true ↔ departureRecordShape j) ∧
    (∀ root elems, root.getField "departures" = some (Json.arr elems) →
      parse_departures_json root = some (elems.filterMap normalizeElem)) := by
  constructor
  · intro j
    unfold normalizeElem departureRecordShape
    cases h1 : j.getField "destination" with
    | none => simp [h1]
    | some v1 =>
      cases v1 with
      | str dest =>
        cases h2 : j.getField "expected" with
        | none => simp [h1, h2]
        | some v2 =>
          cases v2 with
          | str expectedStr =>
            cases h3 : j.getField "line" with
            | none => simp [h1, h2, h3]
            | some v3 =>
              cases v3 with
              | obj lineFields =>
                cases h4 : Json.getField (Json.obj lineFields) "designation" with
                | none => simp [h1, h2, h3, h4]
                | some v4 =>
                  cases v4 with
                  | str desig =>
                    cases h5 : Json.getField (Json.obj lineFields) "group_of_lines" with
                    | none => simp [h1, h2, h3, h4, h5]
                    | some v5 => cases v5 <;> simp [h1, h2, h3, h4, h5]
                  | null => simp [h1, h2, h3, h4]
                  | bool b => simp [h1, h2, h3, h4]
                  | num n => simp [h1, h2, h3, h4]
                  | arr es => simp [h1, h2, h3, h4]
                  | obj fs => simp [h1, h2, h3, h4]
              | null => simp [h1, h2, h3]
              | bool b => simp [h1, h2, h3]
              | num n => simp [h1, h2, h3]
              | str s => simp [h1, h2, h3]
              | arr es => simp [h1, h2, h3]
          | null => simp [h1, h2]
          | bool b => simp [h1, h2]
          | num n => simp [h1, h2]
          | arr es => simp [h1, h2]
          | obj fs => simp [h1, h2]
      | null => simp [h1]
      | bool b => simp [h1]
      | num n => simp [h1]
      | arr es => simp [h1]
      | obj fs => simp [h1]
  · intro root elems h
    unfold parse_departures_json
    rw [h]

/-- C1 witness: the shape characterization and batch tolerance applied to
the mixed fixture payload. -/
theorem c1_materialization_shape_witness :
    mixRoot.getField "departures" = some (Json.arr [elemNoGroup, elemValid]) ∧
    parse_departures_json mixRoot = some ([elemNoGroup, elemValid].filterMap normalizeElem) :=
  ⟨rfl, c1_materialization_shape.2 mixRoot [elemNoGroup, elemValid] rfl⟩

/-! ## Lemmas about strtoul on digit-only strings -/

theorem isSpaceC_eq_false_of_digit {c : Char} (h : isDigitC c = true) :
    isSpaceC c = false := by
  simp only [isDigitC, decide_eq_true_eq] at h
  simp only [isSpaceC, decide_eq_false_iff_not, not_or]
  refine ⟨?_, ?_, ?_, by omega, by omega, ?_⟩ <;>
    (intro e; subst e; revert h; decide)

theorem char_ne_dash_of_digit {c : Char} (h : isDigitC c = true) : ¬(c = '-') := by
  intro e; subst e; revert h; decide

theorem char_ne_plus_of_digit {c : Char} (h : isDigitC c = true) : ¬(c = '+') := by
  intro e; subst e; revert h; decide

theorem takeWhile_of_all {p : α → Bool} :
    ∀ l : List α, (∀ a ∈ l, p a = true) → l.takeWhile p = l := by
  intro l h
  induction l with
  | nil => rfl
  | cons a t ih =>
    rw [List.takeWhile_cons, if_pos (h a (List.mem_cons_self a t))]
    rw [ih fun b hb => h b (List.mem_cons_of_mem a hb)]

theorem strtoul10_all_digits (l : List Char) (h1 : l ≠ [])
    (h2 : ∀ c ∈ l, isDigitC c = true) (h3 : natOfDigits l ≤ 2 ^ 64 - 1) :
    strtoul10 l = (natOfDigits l, []) := by
  cases l with
  | nil => exact absurd rfl h1
  | cons c t =>
    have hc : isDigitC c = true := h2 c (List.mem_cons_self c t)
    have hds : (c :: t).dropWhile isSpaceC = c :: t := by
      rw [List.dropWhile_cons, if_neg (by simp [isSpaceC_eq_false_of_digit hc])]
    have hss : stripSign (c :: t) = (false, c :: t) := by
      simp only [stripSign]
      rw [if_neg (char_ne_dash_of_digit hc), if_neg (char_ne_plus_of_digit hc)]
    have htw : (c :: t).takeWhile isDigitC = c :: t := takeWhile_of_all _ h2
    simp only [strtoul10, hds, hss, htw]
    rw [if_neg (by simp), if_neg (by omega)]
    simp [List.drop_length]

/-! ## Claim C4: the destination filter's numeric and text branches -/

/-- C4 counterexample: the token "-1" does not parse as a non-negative
integer, and the destination text does contain "-1" case-insensitively,
yet the filter removes the departure: the C code lets strtoul consume the
sign, lands in the numeric branch, and searches the destination for
"4294967295" (the parsed value truncated to unsigned int). -/
theorem c4_signed_token_goes_numeric :
    str_contains_case_insensitive "Väg -1 Norra" "-1" = true ∧
    (strtoul10 ("-1" : String).data).1 % 2 ^ 32 = 4294967295 ∧
    filter_departures_by_destination [depDash1] "-1" = [] := by
  refine ⟨by decide, by decide, by decide⟩

/-- C4 amended: the branch choice follows strtoul, not the surface form
of the token — whenever strtoul consumes the whole token (which includes
signed and whitespace-prefixed tokens and the empty token), a departure
is retained iff its destination contains the decimal rendering of the
parsed value truncated to unsigned int; for every token strtoul does not
fully consume, a departure is retained iff its destination contains the
token case-insensitively.  The spec's quoted 9001 and airport examples
hold as stated. -/
theorem c4_destination_filter :
    (∀ deps (token : String), (strtoul10 token.data).2 = [] →
      filter_departures_by_destination deps token =
        List.filter (fun dep =>
          strstrB dep.destination.data
            (Nat.repr ((strtoul10 token.data).1 % 2 ^ 32)).data) deps) ∧
    (∀ deps (token : String), (strtoul10 token.data).2 ≠ [] →
      filter_departures_by_destination deps token =
        List.filter (fun dep => str_contains_case_insensitive dep.destination token) deps) ∧
    filter_departures_by_destination [dep9001, depAirport] "9001" = [dep9001] ∧
    filter_departures_by_destination [depAirport, depAirport2, dep9001] "airport" =
      [depAirport, depAirport2] := by
  refine ⟨?_, ?_, by decide, by decide⟩
  · intro deps token h
    rw [filter_departures_by_destination, retainPass_eq_filter]
    congr 1
    funext dep
    rw [destinationMatches, if_pos h]
  · intro deps token h
    rw [filter_departures_by_destination, retainPass_eq_filter]
    congr 1
    funext dep
    rw [destinationMatches, if_neg h]
    unfold str_contains_case_insensitive
    rw [str_to_lower, show (⟨lowerL token.data⟩ : String).data = lowerL token.data from rfl,
      lowerL_idem]

/-- C4 witness: both branches instantiated on the spec's example tokens
and departures. -/
theorem c4_destination_filter_witness :
    (strtoul10 ("9001" : String).data).2 = [] ∧
    filter_departures_by_destination [dep9001, depAirport] "9001" =
      List.filter (fun dep =>
        strstrB dep.destination.data
          (Nat.repr ((strtoul10 ("9001" : String).data).1 % 2 ^ 32)).data)
        [dep9001, depAirport] ∧
    (strtoul10 ("airport" : String).data).2 ≠ [] ∧
    filter_departures_by_destination [depAirport, depAirport2, dep9001] "airport" =
      List.filter (fun dep => str_contains_case_insensitive dep.destination "airport")
        [depAirport, depAirport2, dep9001] :=
  ⟨by decide, c4_destination_filter.1 [dep9001, depAirport] "9001" (by decide),
    by decide,
    c4_destination_filter.2.1 [depAirport, depAirport2, dep9001] "airport" (by decide)⟩

/-! ## Claim C2: station resolution -/

/-- C2 counterexample: "-1" does not parse as a non-negative decimal
integer, so per the claim resolution should perform one site-list fetch
and substring-match the name list; instead strtoul consumes the sign,
the code takes the direct numeric path with zero fetches, and the
station id becomes 4294967295. -/
theorem c2_signed_input_no_fetch :
    resolveStation [⟨"Central Station", 1⟩] "-1" = (some 4294967295, 0) := by decide

/-- C2 amended: the direct path is taken exactly when strtoul consumes
the entire input (this covers every digit-only string, whose value below
2^32 is returned as-is, but also signed or whitespace-prefixed inputs and
the empty string, with the value truncated mod 2^32); only inputs with an
unconsumed suffix cause exactly one site-list fetch, returning the id of
the first station whose name contains the input case-insensitively and
failing when there is none (provider ids assumed nonzero, since the code
reserves id 0 for "not found"). -/
theorem c2_station_resolution :
    (∀ sites (s : String), s.data ≠ [] → (∀ c ∈ s.data, isDigitC c = true) →
      natOfDigits s.data < 2 ^ 32 →
      resolveStation sites s = (some (natOfDigits s.data), 0)) ∧
    (∀ sites (s : String), (strtoul10 s.data).2 = [] →
      resolveStation sites s = (some ((strtoul10 s.data).1 % 2 ^ 32), 0)) ∧
    (∀ sites (s : String), (strtoul10 s.data).2 ≠ [] → (∀ st ∈ sites, st.id ≠ 0) →
      resolveStation sites s =
        ((sites.find? (fun st => str_contains_case_insensitive st.name s)).map
          StopInfo.id, 1)) := by
  refine ⟨?_, ?_, ?_⟩
  · intro sites s h1 h2 h3
    have he := strtoul10_all_digits s.data h1 h2 (by omega)
    simp only [resolveStation, he]
    rw [if_pos trivial, Nat.mod_eq_of_lt h3]
  · intro sites s h
    simp only [resolveStation, if_pos h]
  · intro sites s h hid
    simp only [resolveStation, if_neg h]
    unfold sl_find_station_id
    cases hf : sites.find? (fun st => str_contains_case_insensitive st.name s) with
    | none => simp
    | some st =>
      have hmem : st ∈ sites := List.mem_of_find?_eq_some hf
      simp [hid st hmem]

/-- C2 witness: the digit passthrough on "9001" with no fetch, and the
name path on "centralen" with exactly one fetch returning the first
matching site's id. -/
theorem c2_station_resolution_witness :
    (("9001" : String).data ≠ [] ∧ (∀ c ∈ ("9001" : String).data, isDigitC c = true) ∧
      natOfDigits ("9001" : String).data < 2 ^ 32 ∧
      resolveStation [] "9001" = (some (natOfDigits ("9001" : String).data), 0)) ∧
    ((strtoul10 ("centralen" : String).data).2 ≠ [] ∧
      (∀ st ∈ [(⟨"T-Centralen", 9001⟩ : StopInfo)], st.id ≠ 0) ∧
      resolveStation [⟨"T-Centralen", 9001⟩] "centralen" =
        (([(⟨"T-Centralen", 9001⟩ : StopInfo)].find?
            (fun st => str_contains_case_insensitive st.name "centralen")).map
          StopInfo.id, 1)) :=
  ⟨⟨by decide, by decide, by decide,
      c2_station_resolution.1 [] "9001" (by decide) (by decide) (by decide)⟩,
    by decide, by decide,
    c2_station_resolution.2.2 [⟨"T-Centralen", 9001⟩] "centralen" (by decide) (by decide)⟩

/-! ## Lemmas about strptime on canonically rendered timestamps -/

theorem digitChar_facts (k : Nat) (h : k < 10) :
    isDigitC (Char.ofNat (48 + k)) = true ∧ isSpaceC (Char.ofNat (48 + k)) = false ∧
    digitVal (Char.ofNat (48 + k)) = k := by
  interval_cases k <;> exact ⟨by decide, by decide, by decide⟩

theorem getNumLoop_zero (hi val : Nat) (l : List Char) : getNumLoop hi 0 val l = (val, l) := rfl

theorem getNumLoop_succ (hi w val : Nat) (c : Char) (t : List Char)
    (h1 : val * 10 ≤ hi) (h2 : isDigitC c = true) :
    getNumLoop hi (w + 1) val (c :: t) = getNumLoop hi w (val * 10 + digitVal c) t := by
  simp only [getNumLoop]
  rw [if_pos ⟨h1, h2⟩]

theorem matchChar_same (c : Char) (t : List Char) : matchChar c (c :: t) = some t := by
  simp [matchChar]

theorem getNumStart_cons_digit (lo hi width : Nat) (c : Char) (t : List Char)
    (hc : isDigitC c = true)
    (hrange : lo ≤ (getNumLoop hi (width - 1) (digitVal c) t).1 ∧
      (getNumLoop hi (width - 1) (digitVal c) t).1 ≤ hi) :
    getNumStart lo hi width (c :: t) = some (getNumLoop hi (width - 1) (digitVal c) t) := by
  simp only [getNumStart]
  rw [if_pos hc, if_pos hrange]

theorem get_number_pad2 (lo hi v : Nat) (rest : List Char)
    (h1 : lo ≤ v) (h2 : v ≤ hi) (h3 : v / 10 * 10 ≤ hi) (h4 : v ≤ 99) :
    get_number lo hi 2 (pad2 v ++ rest) = some (v, rest) := by
  have hv10 : v / 10 % 10 = v / 10 := Nat.mod_eq_of_lt (by omega)
  obtain ⟨ha_d, ha_s, ha_v⟩ := digitChar_facts (v / 10 % 10) (Nat.mod_lt _ (by omega))
  obtain ⟨hb_d, hb_s, hb_v⟩ := digitChar_facts (v % 10) (Nat.mod_lt _ (by omega))
  have e : pad2 v ++ rest =
      Char.ofNat (48 + v / 10 % 10) :: Char.ofNat (48 + v % 10) :: rest := by
    simp [pad2]
  rw [e]
  unfold get_number
  rw [List.dropWhile_cons, if_neg (by simp [ha_s])]
  rw [getNumStart_cons_digit lo hi 2 _ _ ha_d ?hrange]
  case hrange =>
    have estep : getNumLoop hi (2 - 1) (digitVal (Char.ofNat (48 + v / 10 % 10)))
        (Char.ofNat (48 + v % 10) :: rest) = (v, rest) := by
      have e1 : getNumLoop hi (2 - 1) (digitVal (Char.ofNat (48 + v / 10 % 10)))
          (Char.ofNat (48 + v % 10) :: rest) =
          getNumLoop hi 0 (digitVal (Char.ofNat (48 + v / 10 % 10)) * 10 +
            digitVal (Char.ofNat (48 + v % 10))) rest :=
        getNumLoop_succ hi 0 _ _ rest (by rw [ha_v, hv10]; exact h3) hb_d
      rw [e1, getNumLoop_zero, ha_v, hb_v, hv10]
      rw [show v / 10 * 10 + v % 10 = v from by omega]
    rw [estep]
    exact ⟨h1, h2⟩
  congr 1
  have e1 : getNumLoop hi (2 - 1) (digitVal (Char.ofNat (48 + v / 10 % 10)))
      (Char.ofNat (48 + v % 10) :: rest) =
      getNumLoop hi 0 (digitVal (Char.ofNat (48 + v / 10 % 10)) * 10 +
        digitVal (Char.ofNat (48 + v % 10))) rest :=
    getNumLoop_succ hi 0 _ _ rest (by rw [ha_v, hv10]; exact h3) hb_d
  rw [e1, getNumLoop_zero, ha_v, hb_v, hv10]
  rw [show v / 10 * 10 + v % 10 = v from by omega]

theorem getNumLoop_pad4_tail (v : Nat) (rest : List Char) (h : v ≤ 9999) :
    getNumLoop 9999 3 (v / 1000)
      (Char.ofNat (48 + v / 100 % 10) :: Char.ofNat (48 + v / 10 % 10) ::
        Char.ofNat (48 + v % 10) :: rest) = (v, rest) := by
  obtain ⟨hB_d, _, hB_v⟩ := digitChar_facts (v / 100 % 10) (Nat.mod_lt _ (by omega))
  obtain ⟨hC_d, _, hC_v⟩ := digitChar_facts (v / 10 % 10) (Nat.mod_lt _ (by omega))
  obtain ⟨hD_d, _, hD_v⟩ := digitChar_facts (v % 10) (Nat.mod_lt _ (by omega))
  have s1 : getNumLoop 9999 3 (v / 1000)
      (Char.ofNat (48 + v / 100 % 10) :: Char.ofNat (48 + v / 10 % 10) ::
        Char.ofNat (48 + v % 10) :: rest) =
      getNumLoop 9999 2 (v / 1000 * 10 + digitVal (Char.ofNat (48 + v / 100 % 10)))
        (Char.ofNat (48 + v / 10 % 10) :: Char.ofNat (48 + v % 10) :: rest) :=
    getNumLoop_succ 9999 2 _ _ _ (by omega) hB_d
  rw [s1, hB_v, show v / 1000 * 10 + v / 100 % 10 = v / 100 from by omega]
  have s2 : getNumLoop 9999 2 (v / 100)
      (Char.ofNat (48 + v / 10 % 10) :: Char.ofNat (48 + v % 10) :: rest) =
      getNumLoop 9999 1 (v / 100 * 10 + digitVal (Char.ofNat (48 + v / 10 % 10)))
        (Char.ofNat (48 + v % 10) :: rest) :=
    getNumLoop_succ 9999 1 _ _ _ (by omega) hC_d
  rw [s2, hC_v, show v / 100 * 10 + v / 10 % 10 = v / 10 from by omega]
  have s3 : getNumLoop 9999 1 (v / 10) (Char.ofNat (48 + v % 10) :: rest) =
      getNumLoop 9999 0 (v / 10 * 10 + digitVal (Char.ofNat (48 + v % 10))) rest :=
    getNumLoop_succ 9999 0 _ _ _ (by omega) hD_d
  rw [s3, getNumLoop_zero, hD_v, show v / 10 * 10 + v % 10 = v from by omega]

theorem get_number_pad4 (v : Nat) (rest : List Char) (h : v ≤ 9999) :
    get_number 0 9999 4 (pad4 v ++ rest) = some (v, rest) := by
  obtain ⟨hA_d, hA_s, hA_v⟩ := digitChar_facts (v / 1000 % 10) (Nat.mod_lt _ (by omega))
  have e : pad4 v ++ rest =
      Char.ofNat (48 + v / 1000 % 10) :: Char.ofNat (48 + v / 100 % 10) ::
        Char.ofNat (48 + v / 10 % 10) :: Char.ofNat (48 + v % 10) :: rest := by
    simp [pad4]
  rw [e]
  unfold get_number
  rw [List.dropWhile_cons, if_neg (by simp [hA_s])]
  have hv1000 : v / 1000 % 10 = v / 1000 := Nat.mod_eq_of_lt (by omega)
  have etail : getNumLoop 9999 (4 - 1) (digitVal (Char.ofNat (48 + v / 1000 % 10)))
      (Char.ofNat (48 + v / 100 % 10) :: Char.ofNat (48 + v / 10 % 10) ::
        Char.ofNat (48 + v % 10) :: rest) = (v, rest) := by
    rw [hA_v, hv1000]
    exact getNumLoop_pad4_tail v rest h
  rw [getNumStart_cons_digit 0 9999 4 _ _ hA_d (by rw [etail]; exact ⟨Nat.zero_le v, h⟩)]
  rw [etail]

theorem strptimeTs_render (y mo d h mi sec : Nat) (hy : y ≤ 9999)
    (hmo1 : 1 ≤ mo) (hmo2 : mo ≤ 12) (hd1 : 1 ≤ d) (hd2 : d ≤ 31)
    (hh : h ≤ 23) (hmi : mi ≤ 59) (hs : sec ≤ 59) :
    strptimeTs (renderTs y mo d h mi sec).data = some ⟨y, mo, d, h, mi, sec⟩ := by
  have g1 := get_number_pad4 y
    ('-' :: (pad2 mo ++ '-' :: (pad2 d ++ 'T' :: (pad2 h ++ ':' :: (pad2 mi ++ ':' :: pad2 sec))))) hy
  have g2 := get_number_pad2 1 12 mo
    ('-' :: (pad2 d ++ 'T' :: (pad2 h ++ ':' :: (pad2 mi ++ ':' :: pad2 sec))))
    hmo1 hmo2 (by omega) (by omega)
  have g3 := get_number_pad2 1 31 d
    ('T' :: (pad2 h ++ ':' :: (pad2 mi ++ ':' :: pad2 sec))) hd1 hd2 (by omega) (by omega)
  have g4 := get_number_pad2 0 23 h
    (':' :: (pad2 mi ++ ':' :: pad2 sec)) (Nat.zero_le h) hh (by omega) (by omega)
  have g5 := get_number_pad2 0 59 mi (':' :: pad2 sec) (Nat.zero_le mi) hmi (by omega) (by omega)
  have g6 : get_number 0 61 2 (pad2 sec) = some (sec, []) := by
    have := get_number_pad2 0 61 sec [] (Nat.zero_le sec) (by omega) (by omega) (by omega)
    rwa [List.append_nil] at this
  simp only [strptimeTs, renderTs, g1, g2, g3, g4, g5, g6, matchChar_same,
    Option.bind_eq_bind, Option.some_bind, Option.pure_def]

theorem tdiv_clamp (diff : Int) :
    (if 0 < Int.tdiv diff 60 then Int.tdiv diff 60 else 0) =
      if diff ≤ 0 then 0 else ((diff.toNat / 60 : Nat) : Int) := by
  cases diff with
  | ofNat n =>
    rw [show Int.tdiv (Int.ofNat n) 60 = ((n / 60 : Nat) : Int) from rfl,
      show (Int.ofNat n) = (n : Int) from rfl,
      show ((n : Int)).toNat = n from rfl]
    by_cases hn : n = 0
    · subst hn; simp
    · rw [if_neg (by omega : ¬((n : Int) ≤ 0))]
      by_cases h60 : n / 60 = 0
      · rw [h60]; simp
      · rw [if_pos (by omega : (0 : Int) < ((n / 60 : Nat) : Int))]
  | negSucc n =>
    rw [show Int.tdiv (Int.negSucc n) 60 = -(((n + 1) / 60 : Nat) : Int) from rfl,
      Int.negSucc_eq]
    rw [if_neg (by omega : ¬(0 : Int) < -(((n + 1) / 60 : Nat) : Int)),
      if_pos (by omega : -((n : Int) + 1) ≤ 0)]

theorem renderTs_data_length (y mo d h mi s : Nat) :
    (renderTs y mo d h mi s).data.length = 19 := by
  simp [renderTs, pad4, pad2]

/-! ## Claim C5: wait-minute computation -/

/-- C5 counterexample: the input 2025-01-01T10:00:00Z is not in the
format YYYY-MM-DDTHH:MM:SS (it carries a trailing suffix), yet
`calculate_wait_minutes` returns 0 rather than the ParseError value -1,
because strptime ignores whatever follows the last converted field. -/
theorem c5_trailing_suffix_skips_parse_error :
    ¬ specWellFormedTs "2025-01-01T10:00:00Z" ∧
    calculate_wait_minutes "2025-01-01T10:00:00Z" (tmToSeconds ⟨2025, 1, 1, 10, 0, 0⟩) = 0 := by
  constructor
  · rintro ⟨y, mo, d, h, mi, s, _, _, _, _, _, _, _, _, he⟩
    have h20 : ("2025-01-01T10:00:00Z" : String).data.length = 20 := by decide
    rw [he, renderTs_data_length] at h20
    omega
  · decide

/-- C5 amended: for every timestamp written exactly as YYYY-MM-DDTHH:MM:SS
with in-range fields, the result is the whole-minute difference to the
current moment truncated toward zero and clamped below at 0 (so a
timestamp 90 seconds in the past yields 0); inputs whose leading portion
fails to parse yield the ParseError value -1, but inputs that merely
carry trailing characters after a valid prefix are accepted rather than
rejected. -/
theorem c5_minutes_until :
    (∀ (y mo d h mi s : Nat) (now : Int),
      y ≤ 9999 → 1 ≤ mo → mo ≤ 12 → 1 ≤ d → d ≤ 31 → h ≤ 23 → mi ≤ 59 → s ≤ 59 →
      calculate_wait_minutes (renderTs y mo d h mi s) now =
        if tmToSeconds ⟨y, mo, d, h, mi, s⟩ - now ≤ 0 then 0
        else (((tmToSeconds ⟨y, mo, d, h, mi, s⟩ - now).toNat / 60 : Nat) : Int)) ∧
    calculate_wait_minutes "2025-13-01T00:00:00" 0 = -1 := by
  refine ⟨?_, by decide⟩
  intro y mo d h mi s now hy hmo1 hmo2 hd1 hd2 hh hmi hs
  unfold calculate_wait_minutes
  rw [strptimeTs_render y mo d h mi s hy hmo1 hmo2 hd1 hd2 hh hmi hs]
  exact tdiv_clamp _

/-- C5 witness: the canonical timestamp 2025-01-01T10:00:00 evaluated 90
seconds after it has passed. -/
theorem c5_minutes_until_witness :
    (2025 : Nat) ≤ 9999 ∧ (1 : Nat) ≤ 1 ∧ (1 : Nat) ≤ 12 ∧ (1 : Nat) ≤ 1 ∧ (1 : Nat) ≤ 31 ∧
    (10 : Nat) ≤ 23 ∧ (0 : Nat) ≤ 59 ∧ (0 : Nat) ≤ 59 ∧
    calculate_wait_minutes (renderTs 2025 1 1 10 0 0)
        (tmToSeconds ⟨2025, 1, 1, 10, 0, 0⟩ + 90) =
      (if tmToSeconds ⟨2025, 1, 1, 10, 0, 0⟩ - (tmToSeconds ⟨2025, 1, 1, 10, 0, 0⟩ + 90) ≤ 0
        then 0
        else (((tmToSeconds ⟨2025, 1, 1, 10, 0, 0⟩ -
          (tmToSeconds ⟨2025, 1, 1, 10, 0, 0⟩ + 90)).toNat / 60 : Nat) : Int)) :=
  ⟨by decide, by decide, by decide, by decide, by decide, by decide, by decide, by decide,
    c5_minutes_until.1 2025 1 1 10 0 0 (tmToSeconds ⟨2025, 1, 1, 10, 0, 0⟩ + 90)
      (by decide) (by decide) (by decide) (by decide)
      (by decide) (by decide) (by decide) (by decide)⟩
